import Mathlib

/-!
# MillionBase: verification of the claim registry and its client-side view cache

Shallow embedding of the two source components of the repository:

* `src/contracts/src/MillionBaseToken.sol` — the on-chain claim registry
  (Solidity contract `MillionBaseToken`), modelled in namespace `MBT`;
* `src/src/App.tsx` — the client session's claim cache and lazy sync
  fetching logic (the `Cell` renderer, the `claim` handler and the two
  React state sets `clicked` / `remoteClaimedSet`), modelled in
  namespace `UI`.

Addresses are modelled as natural numbers, `0` standing for
`address(0)`. A reverting Solidity call is an `Except.error`: the caller
observes no state change, which matches EVM revert semantics.
-/

namespace MBT

/-- `MAX_SUPPLY` constant of `MillionBaseToken.sol` (hard cap, decimals = 0). -/
def MAX_SUPPLY : Nat := 1000000

/-- Contract storage: `owner` from `Ownable`, the `claimedBy` mapping
(cell index mapped onto the claimant address, `0` if unclaimed), and the
ERC-20 state touched by `_mint` (`totalSupply` and `balances`). -/
structure EvmState where
  owner : Nat
  claimedBy : Nat → Nat
  totalSupply : Nat
  balances : Nat → Nat

/-- Revert reasons of the contract's calls.  The first three are the
`require` messages of `claim` ("index out of range", "already claimed",
"Max supply reached"); `NotOwner` is `Ownable`'s `onlyOwner` gate;
`InvalidReceiver` is OpenZeppelin ERC-20 `_mint`'s zero-address guard. -/
inductive ClaimError where
  | OutOfRange
  | AlreadyClaimed
  | CapReached
  | NotOwner
  | InvalidReceiver
deriving DecidableEq, Repr

/-- The `Claimed(address indexed claimer, uint256 indexed cellIndex)`
event of the contract. -/
inductive Event where
  | Claimed (claimer cellIndex : Nat)
deriving DecidableEq, Repr

/-- The storage update of OpenZeppelin ERC-20 `_mint(toAddr, amount)`:
increment `totalSupply` and the receiver's balance.  `_mint`'s
zero-receiver guard (revert `ERC20InvalidReceiver`) is modelled at the
call sites as an explicit check, since a failing `_mint` reverts the
whole transaction. -/
def mintTo (s : EvmState) (toAddr amount : Nat) : EvmState :=
  { s with
    totalSupply := s.totalSupply + amount
    balances := fun a => if a = toAddr then s.balances a + amount else s.balances a }

/-- `claim(uint256 cellIndex)` of `MillionBaseToken.sol`, executed by
`sender` (= `msg.sender`).  The three `if`s are the contract's three
`require`s in source order; the `sender = 0` check is `_mint`'s
zero-receiver guard; on success the cell is recorded, one token is
minted for the caller and `Claimed(msg.sender, cellIndex)` is emitted. -/
def claim (s : EvmState) (sender cellIndex : Nat) :
    Except ClaimError (EvmState × List Event) :=
  if cellIndex < MAX_SUPPLY then
    if s.claimedBy cellIndex = 0 then
      if s.totalSupply < MAX_SUPPLY then
        if sender = 0 then .error .InvalidReceiver
        else
          .ok (mintTo
                { s with claimedBy := fun j => if j = cellIndex then sender else s.claimedBy j }
                sender 1,
               [Event.Claimed sender cellIndex])
      else .error .CapReached
    else .error .AlreadyClaimed
  else .error .OutOfRange

/-- `isClaimed(uint256 cellIndex)` of the contract. -/
def isClaimed (s : EvmState) (cellIndex : Nat) : Bool :=
  decide (s.claimedBy cellIndex ≠ 0)

/-- `ownerClaim(address toAddr, uint256 cellIndex)` of the contract:
`onlyOwner` gate first, then the same two `require`s as `claim` (note:
no `totalSupply() < MAX_SUPPLY` check), record the cell for `toAddr`,
mint one token for `toAddr`.  No `Claimed` event is emitted. -/
def ownerClaim (s : EvmState) (sender toAddr cellIndex : Nat) :
    Except ClaimError (EvmState × List Event) :=
  if sender = s.owner then
    if cellIndex < MAX_SUPPLY then
      if s.claimedBy cellIndex = 0 then
        if toAddr = 0 then .error .InvalidReceiver
        else
          .ok (mintTo
                { s with claimedBy := fun j => if j = cellIndex then toAddr else s.claimedBy j }
                toAddr 1,
               [])
      else .error .AlreadyClaimed
    else .error .OutOfRange
  else .error .NotOwner

/-- The state a caller observes after a `claim` transaction: the new
state on success, the unchanged state on revert. -/
def execClaim (s : EvmState) (sender cellIndex : Nat) : EvmState :=
  match claim s sender cellIndex with
  | .ok (s', _) => s'
  | .error _ => s

/-- Storage right after the constructor: deployer becomes owner, no cell
claimed, zero supply and balances. -/
def initialState (deployer : Nat) : EvmState :=
  { owner := deployer
    claimedBy := fun _ => 0
    totalSupply := 0
    balances := fun _ => 0 }

/-- Number of claimed cells of the 1,000,000-cell grid. -/
def countClaimed (s : EvmState) : Nat :=
  ((Finset.range MAX_SUPPLY).filter (fun i => s.claimedBy i ≠ 0)).card

/-- One state transition of the contract: a successful `claim` or a
successful `ownerClaim` by arbitrary callers.  Reverting calls leave the
state unchanged and hence need no transition. -/
inductive Step : EvmState → EvmState → Prop where
  | claim (s s' : EvmState) (sender cellIndex : Nat) (evs : List Event)
      (h : claim s sender cellIndex = .ok (s', evs)) : Step s s'
  | ownerClaim (s s' : EvmState) (sender toAddr cellIndex : Nat) (evs : List Event)
      (h : ownerClaim s sender toAddr cellIndex = .ok (s', evs)) : Step s s'

/-- States reachable from a fresh deployment. -/
def Reachable (deployer : Nat) (s : EvmState) : Prop :=
  Relation.ReflTransGen Step (initialState deployer) s

/-- The registry's bookkeeping invariant: `totalSupply` counts the
claimed cells, and only in-range cells are ever claimed. -/
def RegistryInv (s : EvmState) : Prop :=
  s.totalSupply = countClaimed s ∧ ∀ i, s.claimedBy i ≠ 0 → i < MAX_SUPPLY

/-- The event log of a call: the emitted events on success, `none` on
revert. -/
def eventLog (r : Except ClaimError (EvmState × List Event)) : Option (List Event) :=
  match r with
  | .ok (_, evs) => some evs
  | .error _ => none

/-- The state reached by a successful `claim` of cell 0 by address 2 on
a fresh deployment by address 1. -/
def exampleState : EvmState := execClaim (initialState 1) 2 0

/-- A storage in which every grid cell is claimed (by address 1) and the
supply equals the cap. -/
def fullClaimedState : EvmState :=
  { owner := 1
    claimedBy := fun j => if j < MAX_SUPPLY then 1 else 0
    totalSupply := MAX_SUPPLY
    balances := fun _ => 0 }

end MBT

namespace UI

/-- `1_000_000`, the grid size hard-coded in `App.tsx`'s `Cell` renderer. -/
def GRID_CELLS : Nat := 1000000

/-- The per-session client state of `App.tsx` that the claim cache is
built from: the `clicked` React state (cells this session claimed), the
`remoteClaimedSet` React state (cells confirmed claimed on-chain), and
the multiset of `isClaimed` queries that have been fired by `Cell`
renders but whose promises have not yet settled. -/
structure SessionState where
  clicked : Finset Nat
  remoteClaimedSet : Finset Nat
  pendingQueries : List Nat
deriving DecidableEq

/-- Session start: both sets are `new Set()`, nothing in flight. -/
def initSession : SessionState :=
  { clicked := ∅, remoteClaimedSet := ∅, pendingQueries := [] }

/-- One render of `Cell` for `cellIndex`: out-of-range indices render
`null`; otherwise, when the index is not in `remoteClaimedSet`, the
renderer fires one fire-and-forget `isClaimed(cellIndex)` query
(`queryFrom` is always available: `contract ?? readContract`). -/
def renderCell (s : SessionState) (cellIndex : Nat) : SessionState :=
  if cellIndex < GRID_CELLS then
    if cellIndex ∈ s.remoteClaimedSet then s
    else { s with pendingQueries := cellIndex :: s.pendingQueries }
  else s

/-- Settlement of one in-flight `isClaimed` query: the `.then` handler
adds the index to `remoteClaimedSet` only when the chain answered
`true`; a rejected promise is swallowed by `.catch(() => {})`, leaving
both sets untouched either way except for the confirmed insertion. -/
def resolveQuery (s : SessionState) (cellIndex : Nat) (claimed : Bool) : SessionState :=
  { s with
    pendingQueries := s.pendingQueries.erase cellIndex
    remoteClaimedSet :=
      if claimed then insert cellIndex s.remoteClaimedSet else s.remoteClaimedSet }

/-- The success path of the `claim` handler in `App.tsx`: after
`tx.wait()` resolves, the cell is added to the `clicked` set
(`setClicked(prev => new Set(prev).add(cellIndex))`). -/
def recordClaimSuccess (s : SessionState) (cellIndex : Nat) : SessionState :=
  { s with clicked := insert cellIndex s.clicked }

/-- The presentation view of a cell, `isClicked` in `Cell`:
`remoteClaimedSet.has(cellIndex) || clicked.has(cellIndex)`. -/
def view (s : SessionState) (cellIndex : Nat) : Bool :=
  decide (cellIndex ∈ s.remoteClaimedSet) || decide (cellIndex ∈ s.clicked)

/-- Number of outstanding (issued, unsettled) `isClaimed` queries for a
cell. -/
def pendingCount (s : SessionState) (cellIndex : Nat) : Nat :=
  s.pendingQueries.count cellIndex

/-- One session event: a `Cell` render, the settlement of an in-flight
query, or a successful on-chain claim by this session.  A failed claim
runs only `alert`/`setTxPending` and touches neither set, so it is the
identity on this state. -/
inductive SessStep : SessionState → SessionState → Prop where
  | render (s : SessionState) (cellIndex : Nat) : SessStep s (renderCell s cellIndex)
  | resolve (s : SessionState) (cellIndex : Nat) (claimed : Bool)
      (h : cellIndex ∈ s.pendingQueries) : SessStep s (resolveQuery s cellIndex claimed)
  | claimOk (s : SessionState) (cellIndex : Nat) : SessStep s (recordClaimSuccess s cellIndex)

/-- The session state after two renders of cell 0 with no settled
query in between. -/
def doubleRenderState : SessionState := renderCell (renderCell initSession 0) 0

end UI

namespace MBT

/-- Inversion of a successful `claim`: all three requires and the mint
guard passed, and the result is the expected storage update plus the
`Claimed` event. -/
lemma claim_ok_iff (s s' : EvmState) (sender cellIndex : Nat) (evs : List Event) :
    claim s sender cellIndex = .ok (s', evs) ↔
      (cellIndex < MAX_SUPPLY ∧ s.claimedBy cellIndex = 0 ∧
       s.totalSupply < MAX_SUPPLY ∧ sender ≠ 0 ∧
       s' = mintTo
              { s with claimedBy := fun j => if j = cellIndex then sender else s.claimedBy j }
              sender 1 ∧
       evs = [Event.Claimed sender cellIndex]) := by
  unfold claim
  by_cases h1 : cellIndex < MAX_SUPPLY <;> simp only [h1, if_true, if_false, reduceIte]
  · by_cases h2 : s.claimedBy cellIndex = 0 <;> simp only [h2, reduceIte]
    · by_cases h3 : s.totalSupply < MAX_SUPPLY <;> simp only [h3, reduceIte]
      · by_cases h4 : sender = 0 <;> simp [h1, h2, h3, h4, eq_comm, and_assoc]
      · simp [h3]
    · simp [h2]
  · simp [h1]

/-- Inversion of a successful `ownerClaim`. -/
lemma ownerClaim_ok_iff (s s' : EvmState) (sender toAddr cellIndex : Nat) (evs : List Event) :
    ownerClaim s sender toAddr cellIndex = .ok (s', evs) ↔
      (sender = s.owner ∧ cellIndex < MAX_SUPPLY ∧ s.claimedBy cellIndex = 0 ∧
       toAddr ≠ 0 ∧
       s' = mintTo
              { s with claimedBy := fun j => if j = cellIndex then toAddr else s.claimedBy j }
              toAddr 1 ∧
       evs = []) := by
  unfold ownerClaim
  by_cases h0 : sender = s.owner <;> simp only [h0, reduceIte]
  · by_cases h1 : cellIndex < MAX_SUPPLY <;> simp only [h1, reduceIte]
    · by_cases h2 : s.claimedBy cellIndex = 0 <;> simp only [h2, reduceIte]
      · by_cases h4 : toAddr = 0 <;> simp [h0, h1, h2, h4, eq_comm, and_assoc]
      · simp [h2]
    · simp [h1]
  · simp [h0]

@[simp] lemma mintTo_claimedBy (s : EvmState) (toAddr amount : Nat) :
    (mintTo s toAddr amount).claimedBy = s.claimedBy := rfl

@[simp] lemma mintTo_totalSupply (s : EvmState) (toAddr amount : Nat) :
    (mintTo s toAddr amount).totalSupply = s.totalSupply + amount := rfl

@[simp] lemma mintTo_owner (s : EvmState) (toAddr amount : Nat) :
    (mintTo s toAddr amount).owner = s.owner := rfl

lemma countClaimed_initial (deployer : Nat) : countClaimed (initialState deployer) = 0 := by
  simp [countClaimed, initialState]

lemma countClaimed_mintTo (s : EvmState) (toAddr amount : Nat) :
    countClaimed (mintTo s toAddr amount) = countClaimed s := rfl

/-- Writing a non-zero claimant into a free in-range cell increases the
number of claimed cells by exactly one. -/
lemma countClaimed_update (s : EvmState) (cellIndex v : Nat)
    (hi : cellIndex < MAX_SUPPLY) (h0 : s.claimedBy cellIndex = 0) (hv : v ≠ 0) :
    countClaimed { s with claimedBy := fun j => if j = cellIndex then v else s.claimedBy j }
      = countClaimed s + 1 := by
  have hset : (Finset.range MAX_SUPPLY).filter
        (fun j => (if j = cellIndex then v else s.claimedBy j) ≠ 0)
      = insert cellIndex ((Finset.range MAX_SUPPLY).filter (fun j => s.claimedBy j ≠ 0)) := by
    ext j
    simp only [Finset.mem_filter, Finset.mem_insert, Finset.mem_range]
    constructor
    · rintro ⟨hj, hne⟩
      by_cases hji : j = cellIndex
      · exact Or.inl hji
      · rw [if_neg hji] at hne
        exact Or.inr ⟨hj, hne⟩
    · rintro (hji | ⟨hj, hne⟩)
      · subst hji
        exact ⟨hi, by simp [hv]⟩
      · refine ⟨hj, ?_⟩
        by_cases hji : j = cellIndex
        · subst hji
          exact absurd h0 hne
        · rw [if_neg hji]
          exact hne
  have hnot : cellIndex ∉ (Finset.range MAX_SUPPLY).filter (fun j => s.claimedBy j ≠ 0) := by
    simp [h0]
  calc countClaimed { s with claimedBy := fun j => if j = cellIndex then v else s.claimedBy j }
      = ((Finset.range MAX_SUPPLY).filter
          (fun j => (if j = cellIndex then v else s.claimedBy j) ≠ 0)).card := rfl
    _ = (insert cellIndex
          ((Finset.range MAX_SUPPLY).filter (fun j => s.claimedBy j ≠ 0))).card := by
        rw [hset]
    _ = countClaimed s + 1 := Finset.card_insert_of_not_mem hnot

/-- While some in-range cell is still free, fewer than `MAX_SUPPLY`
cells are claimed. -/
lemma countClaimed_lt_of_free (s : EvmState) (cellIndex : Nat)
    (hi : cellIndex < MAX_SUPPLY) (h0 : s.claimedBy cellIndex = 0) :
    countClaimed s < MAX_SUPPLY := by
  have hsub : (Finset.range MAX_SUPPLY).filter (fun j => s.claimedBy j ≠ 0)
      ⊆ (Finset.range MAX_SUPPLY).erase cellIndex := by
    intro j hj
    simp only [Finset.mem_filter, Finset.mem_range] at hj
    refine Finset.mem_erase.mpr ⟨?_, Finset.mem_range.mpr hj.1⟩
    rintro rfl
    exact hj.2 h0
  have hcard := Finset.card_le_card hsub
  have herase : ((Finset.range MAX_SUPPLY).erase cellIndex).card = MAX_SUPPLY - 1 := by
    rw [Finset.card_erase_of_mem (Finset.mem_range.mpr hi), Finset.card_range]
  have : countClaimed s ≤ MAX_SUPPLY - 1 := by
    rw [countClaimed, ← herase]
    exact hcard
  omega

lemma registryInv_initial (deployer : Nat) : RegistryInv (initialState deployer) := by
  refine ⟨?_, ?_⟩
  · rw [countClaimed_initial]
    rfl
  · intro i hi
    exact absurd rfl hi

lemma registryInv_step {s t : EvmState} (hInv : RegistryInv s) (hst : Step s t) :
    RegistryInv t := by
  obtain ⟨hcount, hbound⟩ := hInv
  cases hst with
  | claim sender ci evs h =>
      obtain ⟨hi, h0, _, hs0, rfl, _⟩ := (claim_ok_iff _ _ _ _ _).mp h
      refine ⟨?_, ?_⟩
      · rw [mintTo_totalSupply, countClaimed_mintTo, countClaimed_update s ci sender hi h0 hs0]
        show s.totalSupply + 1 = countClaimed s + 1
        rw [hcount]
      · intro i hne
        rw [mintTo_claimedBy] at hne
        by_cases hic : i = ci
        · subst hic
          exact hi
        · apply hbound
          show s.claimedBy i ≠ 0
          have : (if i = ci then sender else s.claimedBy i) ≠ 0 := hne
          rwa [if_neg hic] at this
  | ownerClaim sender toAddr ci evs h =>
      obtain ⟨_, hi, h0, ht0, rfl, _⟩ := (ownerClaim_ok_iff _ _ _ _ _ _).mp h
      refine ⟨?_, ?_⟩
      · rw [mintTo_totalSupply, countClaimed_mintTo, countClaimed_update s ci toAddr hi h0 ht0]
        show s.totalSupply + 1 = countClaimed s + 1
        rw [hcount]
      · intro i hne
        rw [mintTo_claimedBy] at hne
        by_cases hic : i = ci
        · subst hic
          exact hi
        · apply hbound
          show s.claimedBy i ≠ 0
          have : (if i = ci then toAddr else s.claimedBy i) ≠ 0 := hne
          rwa [if_neg hic] at this

lemma registryInv_reachable {deployer : Nat} {s : EvmState} (h : Reachable deployer s) :
    RegistryInv s := by
  induction h with
  | refl => exact registryInv_initial deployer
  | tail _ hbc ih => exact registryInv_step ih hbc

/-- A single contract transition never frees a claimed cell. -/
lemma step_preserves_claimed {s t : EvmState} (hst : Step s t) (i : Nat)
    (h : s.claimedBy i ≠ 0) : t.claimedBy i ≠ 0 := by
  cases hst with
  | claim sender ci evs hc =>
      obtain ⟨_, h0, _, hs0, rfl, _⟩ := (claim_ok_iff _ _ _ _ _).mp hc
      rw [mintTo_claimedBy]
      show (if i = ci then sender else s.claimedBy i) ≠ 0
      by_cases hic : i = ci
      · rw [if_pos hic]
        exact hs0
      · rw [if_neg hic]
        exact h
  | ownerClaim sender toAddr ci evs hc =>
      obtain ⟨_, _, h0, ht0, rfl, _⟩ := (ownerClaim_ok_iff _ _ _ _ _ _).mp hc
      rw [mintTo_claimedBy]
      show (if i = ci then toAddr else s.claimedBy i) ≠ 0
      by_cases hic : i = ci
      · rw [if_pos hic]
        exact ht0
      · rw [if_neg hic]
        exact h

lemma reach_preserves_claimed {s t : EvmState} (hst : Relation.ReflTransGen Step s t) (i : Nat)
    (h : s.claimedBy i ≠ 0) : t.claimedBy i ≠ 0 := by
  induction hst with
  | refl => exact h
  | tail _ hbc ih => exact step_preserves_claimed hbc i ih

/-- A `claim` on an in-range cell that already has a claimant reverts
with "already claimed". -/
lemma claim_error_of_claimed (s : EvmState) (sender i : Nat) (hi : i < MAX_SUPPLY)
    (h : s.claimedBy i ≠ 0) : claim s sender i = .error .AlreadyClaimed := by
  unfold claim
  rw [if_pos hi, if_neg h]

/-- An `ownerClaim` on an in-range cell that already has a claimant
reverts (with "already claimed" if the caller is the owner, with the
owner gate otherwise). -/
lemma ownerClaim_error_of_claimed (s : EvmState) (sender toAddr i : Nat) (hi : i < MAX_SUPPLY)
    (h : s.claimedBy i ≠ 0) : ∃ e, ownerClaim s sender toAddr i = .error e := by
  unfold ownerClaim
  by_cases ho : sender = s.owner
  · exact ⟨.AlreadyClaimed, by rw [if_pos ho, if_pos hi, if_neg h]⟩
  · exact ⟨.NotOwner, by rw [if_neg ho]⟩

/-- **C1.** At most one successful claim per cell: once a `claim` (or an
`ownerClaim`) for cell `i` has succeeded, the cell's claimant is
non-empty, it stays non-empty across any further sequence of contract
transitions, and every later `claim` of `i` reverts with "already
claimed" (and every later `ownerClaim` of `i` reverts too), so exactly
one attempt can ever win cell `i`. -/
theorem claim_at_most_once (s s' t : EvmState) (i : Nat)
    (hwin : (∃ sender evs, claim s sender i = .ok (s', evs)) ∨
            (∃ sender toAddr evs, ownerClaim s sender toAddr i = .ok (s', evs)))
    (ht : Relation.ReflTransGen Step s' t) :
    t.claimedBy i ≠ 0 ∧
    (∀ c, claim t c i = .error .AlreadyClaimed) ∧
    (∀ c toAddr, ∃ e, ownerClaim t c toAddr i = .error e) := by
  have hrc : i < MAX_SUPPLY ∧ s'.claimedBy i ≠ 0 := by
    rcases hwin with ⟨sender, evs, h⟩ | ⟨sender, toAddr, evs, h⟩
    · obtain ⟨hi, _, _, hs0, rfl, _⟩ := (claim_ok_iff _ _ _ _ _).mp h
      refine ⟨hi, ?_⟩
      rw [mintTo_claimedBy]
      show (if i = i then sender else s.claimedBy i) ≠ 0
      rw [if_pos rfl]
      exact hs0
    · obtain ⟨_, hi, _, ht0, rfl, _⟩ := (ownerClaim_ok_iff _ _ _ _ _ _).mp h
      refine ⟨hi, ?_⟩
      rw [mintTo_claimedBy]
      show (if i = i then toAddr else s.claimedBy i) ≠ 0
      rw [if_pos rfl]
      exact ht0
  obtain ⟨hi, hclaimed⟩ := hrc
  have hT := reach_preserves_claimed ht i hclaimed
  exact ⟨hT, fun c => claim_error_of_claimed t c i hi hT,
         fun c toAddr => ownerClaim_error_of_claimed t c toAddr i hi hT⟩

/-- Witness for `claim_at_most_once`: address 2 claims cell 0 on a fresh
deployment; afterwards cell 0 is taken and no second claim of it can
succeed. -/
theorem claim_at_most_once_witness :
    ((∃ sender evs, claim (initialState 1) sender 0 = .ok (exampleState, evs)) ∨
     (∃ sender toAddr evs,
        ownerClaim (initialState 1) sender toAddr 0 = .ok (exampleState, evs))) ∧
    Relation.ReflTransGen Step exampleState exampleState ∧
    (exampleState.claimedBy 0 ≠ 0 ∧
     (∀ c, claim exampleState c 0 = .error .AlreadyClaimed) ∧
     (∀ c toAddr, ∃ e, ownerClaim exampleState c toAddr 0 = .error e)) :=
  ⟨Or.inl ⟨2, [Event.Claimed 2 0], rfl⟩, Relation.ReflTransGen.refl,
   claim_at_most_once (initialState 1) exampleState exampleState 0
     (Or.inl ⟨2, [Event.Claimed 2 0], rfl⟩) Relation.ReflTransGen.refl⟩

/-- **C2.** For every in-range index, `claim` succeeds iff the cell is
currently free and `totalSupply < MAX_SUPPLY`; on success it records the
caller in `claimedBy`, increments `totalSupply` by one, credits the
caller one token and emits `Claimed(claimant, index)`.  The hypothesis
`sender ≠ 0` reflects that `msg.sender` is never the zero address in the
EVM. -/
theorem claim_spec (s : EvmState) (sender cellIndex : Nat)
    (hi : cellIndex < MAX_SUPPLY) (hs : sender ≠ 0) :
    ((claim s sender cellIndex).isOk = true ↔
      (s.claimedBy cellIndex = 0 ∧ s.totalSupply < MAX_SUPPLY)) ∧
    (s.claimedBy cellIndex = 0 → s.totalSupply < MAX_SUPPLY →
      claim s sender cellIndex =
        .ok ({ owner := s.owner
               claimedBy := fun j => if j = cellIndex then sender else s.claimedBy j
               totalSupply := s.totalSupply + 1
               balances := fun a => if a = sender then s.balances a + 1
                                    else s.balances a },
             [Event.Claimed sender cellIndex])) := by
  have hsucc : s.claimedBy cellIndex = 0 → s.totalSupply < MAX_SUPPLY →
      claim s sender cellIndex =
        .ok ({ owner := s.owner
               claimedBy := fun j => if j = cellIndex then sender else s.claimedBy j
               totalSupply := s.totalSupply + 1
               balances := fun a => if a = sender then s.balances a + 1
                                    else s.balances a },
             [Event.Claimed sender cellIndex]) := by
    intro h2 h3
    unfold claim
    rw [if_pos hi, if_pos h2, if_pos h3, if_neg hs]
    rfl
  refine ⟨⟨?_, ?_⟩, hsucc⟩
  · intro hok
    cases hok' : claim s sender cellIndex with
    | error e =>
        rw [hok'] at hok
        exact absurd hok (by simp [Except.isOk, Except.toBool])
    | ok p =>
        obtain ⟨s', evs⟩ := p
        obtain ⟨_, h2, h3, _⟩ := (claim_ok_iff _ _ _ _ _).mp hok'
        exact ⟨h2, h3⟩
  · rintro ⟨h2, h3⟩
    rw [hsucc h2 h3]
    rfl

/-- Witness for `claim_spec`: fresh deployment, caller 2, cell 0. -/
theorem claim_spec_witness :
    (0 < MAX_SUPPLY ∧ (2 : Nat) ≠ 0) ∧
    (((claim (initialState 1) 2 0).isOk = true ↔
       ((initialState 1).claimedBy 0 = 0 ∧ (initialState 1).totalSupply < MAX_SUPPLY)) ∧
     ((initialState 1).claimedBy 0 = 0 → (initialState 1).totalSupply < MAX_SUPPLY →
       claim (initialState 1) 2 0 =
         .ok ({ owner := (initialState 1).owner
                claimedBy := fun j => if j = 0 then 2 else (initialState 1).claimedBy j
                totalSupply := (initialState 1).totalSupply + 1
                balances := fun a => if a = 2 then (initialState 1).balances a + 1
                                     else (initialState 1).balances a },
              [Event.Claimed 2 0]))) :=
  ⟨⟨by decide, by decide⟩, claim_spec (initialState 1) 2 0 (by decide) (by decide)⟩

/-- Counterexample to **C3** as stated: with the supply at the cap but
the target cell itself already claimed, `claim` reverts with "already
claimed", not "Max supply reached" — the rejection reason is *not*
decided independently of the per-cell state, because the per-cell
`require` precedes the cap `require`. -/
theorem capReached_not_unconditional :
    fullClaimedState.totalSupply = MAX_SUPPLY ∧
    claim fullClaimedState 2 0 = .error .AlreadyClaimed ∧
    claim fullClaimedState 2 0 ≠ .error .CapReached := by
  refine ⟨rfl, rfl, ?_⟩
  intro h
  rw [show claim fullClaimedState 2 0 = .error .AlreadyClaimed from rfl] at h
  simp at h

/-- **C3 (amended).** A `claim` attempted while `totalSupply` equals the
cap always fails, but the reason depends on the target cell: a free
in-range cell gets `CapReached`, an in-range cell that is already
claimed gets `AlreadyClaimed` (the per-cell check runs first), and an
out-of-range index gets `OutOfRange`. -/
theorem claim_at_cap_fails (s : EvmState) (sender i : Nat)
    (hcap : s.totalSupply = MAX_SUPPLY) :
    (∃ e, claim s sender i = .error e) ∧
    (i < MAX_SUPPLY → s.claimedBy i = 0 → claim s sender i = .error .CapReached) ∧
    (i < MAX_SUPPLY → s.claimedBy i ≠ 0 → claim s sender i = .error .AlreadyClaimed) := by
  have hnotlt : ¬ s.totalSupply < MAX_SUPPLY := by omega
  have hcapfree : i < MAX_SUPPLY → s.claimedBy i = 0 →
      claim s sender i = .error .CapReached := by
    intro h1 h2
    unfold claim
    rw [if_pos h1, if_pos h2, if_neg hnotlt]
  refine ⟨?_, hcapfree, fun h1 h2 => claim_error_of_claimed s sender i h1 h2⟩
  by_cases h1 : i < MAX_SUPPLY
  · by_cases h2 : s.claimedBy i = 0
    · exact ⟨.CapReached, hcapfree h1 h2⟩
    · exact ⟨.AlreadyClaimed, claim_error_of_claimed s sender i h1 h2⟩
  · refine ⟨.OutOfRange, ?_⟩
    unfold claim
    rw [if_neg h1]

/-- Witness for `claim_at_cap_fails`: the fully-claimed storage. -/
theorem claim_at_cap_fails_witness :
    fullClaimedState.totalSupply = MAX_SUPPLY ∧
    ((∃ e, claim fullClaimedState 2 0 = .error e) ∧
     (0 < MAX_SUPPLY → fullClaimedState.claimedBy 0 = 0 →
        claim fullClaimedState 2 0 = .error .CapReached) ∧
     (0 < MAX_SUPPLY → fullClaimedState.claimedBy 0 ≠ 0 →
        claim fullClaimedState 2 0 = .error .AlreadyClaimed)) :=
  ⟨rfl, claim_at_cap_fails fullClaimedState 2 0 rfl⟩

/-- **C4.** In every state reachable by any sequence of `claim` and
`ownerClaim` transitions from deployment, `totalSupply` equals the
number of cells with a non-empty claimant (all of which are in range),
and the supply never exceeds the 1,000,000 cap. -/
theorem supply_counts_claims (deployer : Nat) (s : EvmState) (h : Reachable deployer s) :
    s.totalSupply = countClaimed s ∧
    (∀ i, s.claimedBy i ≠ 0 → i < MAX_SUPPLY) ∧
    s.totalSupply ≤ MAX_SUPPLY := by
  obtain ⟨hcount, hbound⟩ := registryInv_reachable h
  refine ⟨hcount, hbound, ?_⟩
  rw [hcount, countClaimed]
  calc ((Finset.range MAX_SUPPLY).filter (fun i => s.claimedBy i ≠ 0)).card
      ≤ (Finset.range MAX_SUPPLY).card := Finset.card_filter_le _ _
    _ = MAX_SUPPLY := Finset.card_range _

/-- Witness for `supply_counts_claims`: the state after one successful
claim is reachable and satisfies the invariant. -/
theorem supply_counts_claims_witness :
    Reachable 1 exampleState ∧
    (exampleState.totalSupply = countClaimed exampleState ∧
     (∀ i, exampleState.claimedBy i ≠ 0 → i < MAX_SUPPLY) ∧
     exampleState.totalSupply ≤ MAX_SUPPLY) :=
  ⟨Relation.ReflTransGen.single
     (Step.claim (initialState 1) exampleState 2 0 [Event.Claimed 2 0] rfl),
   supply_counts_claims 1 exampleState
     (Relation.ReflTransGen.single
       (Step.claim (initialState 1) exampleState 2 0 [Event.Claimed 2 0] rfl))⟩

/-- Counterexample to **C5** as stated: on the same fresh deployment,
`claim` of cell 0 by address 2 and `ownerClaim` of cell 0 for address 2
both succeed, but `claim` emits `Claimed(2, 0)` while `ownerClaim` emits
no `Claimed` event at all — the two are not the identical transition. -/
theorem ownerClaim_event_counterexample :
    eventLog (claim (initialState 1) 2 0) = some [Event.Claimed 2 0] ∧
    eventLog (ownerClaim (initialState 1) 1 2 0) = some [] ∧
    eventLog (claim (initialState 1) 2 0) ≠ eventLog (ownerClaim (initialState 1) 1 2 0) := by
  refine ⟨rfl, rfl, ?_⟩
  intro h
  rw [show eventLog (claim (initialState 1) 2 0) = some [Event.Claimed 2 0] from rfl,
      show eventLog (ownerClaim (initialState 1) 1 2 0) = some [] from rfl] at h
  simp at h

/-- **C5 (amended).** Under the registry's counting invariant (which all
reachable states satisfy), `ownerClaim(to, i)` called by the owner and
`claim(i)` called by `to` revert in exactly the same cases with the same
reason, and on success produce the identical storage; they differ only
in the caller-authorization gate, in the emitted `Claimed` event (absent
from `ownerClaim`) and in the cap check, which the invariant makes
unreachable. -/
theorem ownerClaim_same_storage (s : EvmState) (toAddr i : Nat)
    (hcount : s.totalSupply = countClaimed s) :
    Except.map Prod.fst (ownerClaim s s.owner toAddr i) =
      Except.map Prod.fst (claim s toAddr i) := by
  unfold claim ownerClaim
  rw [if_pos rfl]
  by_cases h1 : i < MAX_SUPPLY
  · rw [if_pos h1, if_pos h1]
    by_cases h2 : s.claimedBy i = 0
    · rw [if_pos h2, if_pos h2]
      have h3 : s.totalSupply < MAX_SUPPLY := by
        rw [hcount]
        exact countClaimed_lt_of_free s i h1 h2
      rw [if_pos h3]
      by_cases h4 : toAddr = 0
      · rw [if_pos h4, if_pos h4]
      · rw [if_neg h4, if_neg h4]
        rfl
    · rw [if_neg h2, if_neg h2]
  · rw [if_neg h1, if_neg h1]

/-- Witness for `ownerClaim_same_storage`: fresh deployment, recipient
2, cell 0. -/
theorem ownerClaim_same_storage_witness :
    (initialState 1).totalSupply = countClaimed (initialState 1) ∧
    Except.map Prod.fst (ownerClaim (initialState 1) (initialState 1).owner 2 0) =
      Except.map Prod.fst (claim (initialState 1) 2 0) :=
  ⟨(countClaimed_initial 1).symm,
   ownerClaim_same_storage (initialState 1) 2 0 (countClaimed_initial 1).symm⟩

/-- **C7.** Failed resubmission is idempotent and state-preserving: a
`claim` of an in-range cell whose claimant is non-empty always reverts
with "already claimed", and the caller's post-transaction state is
exactly the pre-transaction state (including `claimedBy` and
`totalSupply`). -/
theorem claim_failed_resubmission (s : EvmState) (sender i : Nat)
    (hi : i < MAX_SUPPLY) (hc : s.claimedBy i ≠ 0) :
    claim s sender i = .error .AlreadyClaimed ∧ execClaim s sender i = s := by
  have h := claim_error_of_claimed s sender i hi hc
  refine ⟨h, ?_⟩
  unfold execClaim
  rw [h]

/-- Witness for `claim_failed_resubmission`: resubmitting cell 0 of the
fully-claimed storage. -/
theorem claim_failed_resubmission_witness :
    (0 < MAX_SUPPLY ∧ fullClaimedState.claimedBy 0 ≠ 0) ∧
    (claim fullClaimedState 2 0 = .error .AlreadyClaimed ∧
     execClaim fullClaimedState 2 0 = fullClaimedState) :=
  ⟨⟨by decide, by decide⟩,
   claim_failed_resubmission fullClaimedState 2 0 (by decide) (by decide)⟩

/-- **C10.** The cap-check failure branch of `claim` is unreachable: in
every reachable state a free in-range cell forces
`totalSupply < MAX_SUPPLY`, so the `require(totalSupply() < MAX_SUPPLY)`
is never the cause of a revert — no `claim` ever returns the
`CapReached` error. -/
theorem cap_check_unreachable (deployer : Nat) (s : EvmState) (h : Reachable deployer s) :
    (∀ i, i < MAX_SUPPLY → s.claimedBy i = 0 → s.totalSupply < MAX_SUPPLY) ∧
    (∀ sender i, claim s sender i ≠ .error .CapReached) := by
  obtain ⟨hcount, hbound⟩ := registryInv_reachable h
  have hfree : ∀ i, i < MAX_SUPPLY → s.claimedBy i = 0 → s.totalSupply < MAX_SUPPLY := by
    intro i hi h0
    rw [hcount]
    exact countClaimed_lt_of_free s i hi h0
  refine ⟨hfree, ?_⟩
  intro sender i hcontra
  unfold claim at hcontra
  by_cases h1 : i < MAX_SUPPLY
  · rw [if_pos h1] at hcontra
    by_cases h2 : s.claimedBy i = 0
    · rw [if_pos h2, if_pos (hfree i h1 h2)] at hcontra
      by_cases h4 : sender = 0
      · rw [if_pos h4] at hcontra
        simp at hcontra
      · rw [if_neg h4] at hcontra
        simp at hcontra
    · rw [if_neg h2] at hcontra
      simp at hcontra
  · rw [if_neg h1] at hcontra
    simp at hcontra

/-- Witness for `cap_check_unreachable`: the reachable state after one
successful claim. -/
theorem cap_check_unreachable_witness :
    Reachable 1 exampleState ∧
    ((∀ i, i < MAX_SUPPLY → exampleState.claimedBy i = 0 →
        exampleState.totalSupply < MAX_SUPPLY) ∧
     (∀ sender i, claim exampleState sender i ≠ .error .CapReached)) :=
  ⟨Relation.ReflTransGen.single
     (Step.claim (initialState 1) exampleState 2 0 [Event.Claimed 2 0] rfl),
   cap_check_unreachable 1 exampleState
     (Relation.ReflTransGen.single
       (Step.claim (initialState 1) exampleState 2 0 [Event.Claimed 2 0] rfl))⟩

end MBT

namespace UI

/-- A single session event never removes a member from `clicked` or from
`remoteClaimedSet`. -/
lemma sessStep_mono {s t : SessionState} (h : SessStep s t) :
    s.clicked ⊆ t.clicked ∧ s.remoteClaimedSet ⊆ t.remoteClaimedSet := by
  cases h with
  | render i =>
      unfold renderCell
      by_cases h1 : i < GRID_CELLS
      · rw [if_pos h1]
        by_cases h2 : i ∈ s.remoteClaimedSet
        · rw [if_pos h2]
          exact ⟨subset_rfl, subset_rfl⟩
        · rw [if_neg h2]
          exact ⟨subset_rfl, subset_rfl⟩
      · rw [if_neg h1]
        exact ⟨subset_rfl, subset_rfl⟩
  | resolve i b hmem =>
      refine ⟨subset_rfl, ?_⟩
      show s.remoteClaimedSet ⊆ (resolveQuery s i b).remoteClaimedSet
      unfold resolveQuery
      cases b
      · simp
      · simp [Finset.subset_insert]
  | claimOk i =>
      refine ⟨?_, subset_rfl⟩
      show s.clicked ⊆ insert i s.clicked
      exact Finset.subset_insert _ _

lemma sessReach_mono {s t : SessionState} (h : Relation.ReflTransGen SessStep s t) :
    s.clicked ⊆ t.clicked ∧ s.remoteClaimedSet ⊆ t.remoteClaimedSet := by
  induction h with
  | refl => exact ⟨subset_rfl, subset_rfl⟩
  | tail _ hbc ih =>
      obtain ⟨h1, h2⟩ := sessStep_mono hbc
      exact ⟨ih.1.trans h1, ih.2.trans h2⟩

lemma view_mono_of_subsets {s t : SessionState} (i : Nat)
    (h1 : s.clicked ⊆ t.clicked) (h2 : s.remoteClaimedSet ⊆ t.remoteClaimedSet)
    (hv : view s i = true) : view t i = true := by
  unfold view at hv ⊢
  simp only [Bool.or_eq_true, decide_eq_true_eq] at hv ⊢
  rcases hv with h | h
  · exact Or.inl (h2 h)
  · exact Or.inr (h1 h)

/-- **C6.** Session-view monotonicity: across any sequence of session
events (renders, query settlements, successful claims), once the
presentation view `view(i)` is true it stays true, and neither the
remote-confirmed set nor the local `clicked` set ever loses a member. -/
theorem view_monotone (s t : SessionState) (i : Nat)
    (hst : Relation.ReflTransGen SessStep s t) :
    (view s i = true → view t i = true) ∧
    s.clicked ⊆ t.clicked ∧ s.remoteClaimedSet ⊆ t.remoteClaimedSet := by
  obtain ⟨h1, h2⟩ := sessReach_mono hst
  exact ⟨fun hv => view_mono_of_subsets i h1 h2 hv, h1, h2⟩

/-- Witness for `view_monotone`: after this session claims cell 5,
another render of cell 5 keeps the view true and both sets intact. -/
theorem view_monotone_witness :
    Relation.ReflTransGen SessStep (recordClaimSuccess initSession 5)
      (renderCell (recordClaimSuccess initSession 5) 5) ∧
    ((view (recordClaimSuccess initSession 5) 5 = true →
        view (renderCell (recordClaimSuccess initSession 5) 5) 5 = true) ∧
     (recordClaimSuccess initSession 5).clicked ⊆
       (renderCell (recordClaimSuccess initSession 5) 5).clicked ∧
     (recordClaimSuccess initSession 5).remoteClaimedSet ⊆
       (renderCell (recordClaimSuccess initSession 5) 5).remoteClaimedSet) :=
  ⟨Relation.ReflTransGen.single (SessStep.render (recordClaimSuccess initSession 5) 5),
   view_monotone (recordClaimSuccess initSession 5)
     (renderCell (recordClaimSuccess initSession 5) 5) 5
     (Relation.ReflTransGen.single (SessStep.render (recordClaimSuccess initSession 5) 5))⟩

/-- Counterexample to **C8** as stated: starting a session and rendering
cell 0 twice before the first `isClaimed` promise settles leaves two
outstanding queries for cell 0 — the renderer issues a new
fire-and-forget query on every render of an unconfirmed cell, with no
in-flight deduplication. -/
theorem dedup_counterexample :
    Relation.ReflTransGen SessStep initSession doubleRenderState ∧
    pendingCount doubleRenderState 0 = 2 ∧
    ¬ pendingCount doubleRenderState 0 ≤ 1 := by
  refine ⟨?_, by decide, by decide⟩
  exact Relation.ReflTransGen.tail
    (Relation.ReflTransGen.single (SessStep.render initSession 0))
    (SessStep.render (renderCell initSession 0) 0)

/-- **C8 (amended).** There is no in-flight deduplication: every render
of an in-range cell not yet in `remoteClaimedSet` issues one more
outstanding `isClaimed` query for that cell — repeated renders while a
lookup is in flight issue additional queries — and only renders of cells
already confirmed in `remoteClaimedSet` (or out of range) issue none. -/
theorem render_query_count (s : SessionState) (i : Nat) :
    pendingCount (renderCell s i) i =
      if i < GRID_CELLS ∧ i ∉ s.remoteClaimedSet
      then pendingCount s i + 1 else pendingCount s i := by
  unfold renderCell pendingCount
  by_cases h1 : i < GRID_CELLS
  · by_cases h2 : i ∈ s.remoteClaimedSet
    · rw [if_pos h1, if_pos h2, if_neg (fun hh => hh.2 h2)]
    · rw [if_pos h1, if_neg h2, if_pos ⟨h1, h2⟩]
      show (i :: s.pendingQueries).count i = s.pendingQueries.count i + 1
      rw [List.count_cons_self]
  · rw [if_neg h1, if_neg (fun hh => h1 hh.1)]

/-- **C9.** Optimistic cache correctness: immediately after the claim
handler records a successful `claim(i)` — in particular before any
remote `isClaimed` confirmation for `i` has been folded into
`remoteClaimedSet` — `view(i)` is already true, and it remains true
across every later session event, whether the remote confirmation
arrives with `true`, arrives with `false`, or never arrives. -/
theorem optimistic_view (s u : SessionState) (i : Nat)
    (hu : Relation.ReflTransGen SessStep (recordClaimSuccess s i) u) :
    view (recordClaimSuccess s i) i = true ∧ view u i = true := by
  have hnow : view (recordClaimSuccess s i) i = true := by
    unfold view recordClaimSuccess
    simp
  obtain ⟨h1, h2⟩ := sessReach_mono hu
  exact ⟨hnow, view_mono_of_subsets i h1 h2 hnow⟩

/-- Witness for `optimistic_view`: the session claims cell 3; a render
fires the lazy lookup, which later settles with `false`; the view of
cell 3 is true throughout. -/
theorem optimistic_view_witness :
    Relation.ReflTransGen SessStep (recordClaimSuccess initSession 3)
      (resolveQuery (renderCell (recordClaimSuccess initSession 3) 3) 3 false) ∧
    (view (recordClaimSuccess initSession 3) 3 = true ∧
     view (resolveQuery (renderCell (recordClaimSuccess initSession 3) 3) 3 false) 3 = true) :=
  ⟨Relation.ReflTransGen.tail
     (Relation.ReflTransGen.single (SessStep.render (recordClaimSuccess initSession 3) 3))
     (SessStep.resolve (renderCell (recordClaimSuccess initSession 3) 3) 3 false (by decide)),
   optimistic_view initSession
     (resolveQuery (renderCell (recordClaimSuccess initSession 3) 3) 3 false) 3
     (Relation.ReflTransGen.tail
       (Relation.ReflTransGen.single (SessStep.render (recordClaimSuccess initSession 3) 3))
       (SessStep.resolve (renderCell (recordClaimSuccess initSession 3) 3) 3 false (by decide)))⟩

end UI
